import Mathlib

/-!
Verification development for the setkontext extraction-and-retrieval engine.

The Python source is embedded shallowly: pure functions become Lean
functions, Python exceptions become an explicit `Except PyErr` result, and
JSON values decoded by `json.loads` become the inductive type `Json`
(`none` models a `json.JSONDecodeError`, `some j` models any response text
whose JSON decoding yields the value `j`).  Wall-clock fields
(`extracted_at`, `fetched_at`, generated UUID `id`s) are omitted from the
embedded records: they are nondeterministic and no property below depends
on them.
-/

namespace Setkontext

/-- A decoded JSON value, as produced by Python's `json.loads`.
Object fields model a Python dict and therefore carry unique keys. -/
inductive Json where
  | null
  | bool (b : Bool)
  | num (n : Int)
  | str (s : String)
  | arr (elems : List Json)
  | obj (fields : List (String × Json))

/-- The Python exceptions the embedded code can raise. -/
inductive PyErr where
  | keyError
  | typeError
  | attributeError
deriving Repr, DecidableEq

/-- Lookup in a JSON object's field list (Python dict indexing). -/
def jlookup : List (String × Json) → String → Option Json
  | [], _ => none
  | (k, v) :: rest, key => if k = key then some v else jlookup rest key

/-- Python `d.get(key, default)`: only valid on a dict, otherwise the
attribute access itself raises `AttributeError`. -/
def pyDictGet (j : Json) (key : String) (dflt : Json) : Except PyErr Json :=
  match j with
  | .obj fields => .ok ((jlookup fields key).getD dflt)
  | _ => .error .attributeError

/-- Python `d[key]` on a decoded JSON value: `KeyError` when the key is
missing from a dict, `TypeError` when the value is not a dict at all. -/
def pySubscript (j : Json) (key : String) : Except PyErr Json :=
  match j with
  | .obj fields =>
    match jlookup fields key with
    | some v => .ok v
    | none => .error .keyError
  | _ => .error .typeError

/-- Python iteration `for x in j`: lists yield their elements, strings
yield one-character strings, dicts yield their keys, and the remaining
scalars raise `TypeError`. -/
def pyIter (j : Json) : Except PyErr (List Json) :=
  match j with
  | .arr elems => .ok elems
  | .str s => .ok (s.data.map (fun c => .str (String.mk [c])))
  | .obj fields => .ok (fields.map (fun f => .str f.fst))
  | _ => .error .typeError

/-- `Entity` as constructed by the response parsers: the dataclass stores
whatever JSON values the model returned. -/
structure JEntity where
  name : Json
  entity_type : Json

/-- `Decision` as constructed by the response parsers (and by the ADR
extractor, which fills the JSON-typed fields with strings). -/
structure Decision where
  source_id : String
  summary : Json
  reasoning : Json
  alternatives : Json
  entities : List JEntity
  confidence : Json
  decision_date : String

/-- `Learning` as constructed by the learning response parser. -/
structure Learning where
  source_id : String
  category : Json
  summary : Json
  detail : Json
  components : Json
  entities : List JEntity

/-- List map in the `Except` monad; the first raised exception aborts the
whole computation, like a Python list comprehension or loop. -/
def mapExcept (f : α → Except PyErr β) : List α → Except PyErr (List β)
  | [] => .ok []
  | x :: xs => do
    let y ← f x
    let ys ← mapExcept f xs
    pure (y :: ys)

/-- One entity element:
`Entity(name=e["name"], entity_type=e.get("entity_type", "technology"))`. -/
def parseEntity (e : Json) : Except PyErr JEntity := do
  let n ← pySubscript e "name"
  let t ← pyDictGet e "entity_type" (.str "technology")
  pure { name := n, entity_type := t }

/-- One element of the `"decisions"` array, following `_parse_response` in
`extraction/pr.py` (`doc.py` and `session.py` are textually identical up
to the `decision_date` argument). -/
def parseDecisionItem (sid dd : String) (item : Json) : Except PyErr Decision := do
  let ej ← pyDictGet item "entities" (.arr [])
  let elist ← pyIter ej
  let ents ← mapExcept parseEntity elist
  let summary ← pyDictGet item "summary" (.str "")
  let reasoning ← pyDictGet item "reasoning" (.str "")
  let alts ← pyDictGet item "alternatives" (.arr [])
  let conf ← pyDictGet item "confidence" (.str "medium")
  pure { source_id := sid, summary := summary, reasoning := reasoning,
         alternatives := alts, entities := ents, confidence := conf,
         decision_date := dd }

/-- `_parse_response` for the decision extractors, from the `json.loads`
step on: `none` is the `JSONDecodeError` branch (zero records), `some j`
is a successfully decoded response body. -/
def parseDecisionsJson (loaded : Option Json) (sid dd : String) :
    Except PyErr (List Decision) :=
  match loaded with
  | none => .ok []
  | some data => do
    let dv ← pyDictGet data "decisions" (.arr [])
    let items ← pyIter dv
    mapExcept (parseDecisionItem sid dd) items

/-- Membership of a parsed category value in the closed 3-value set;
a non-string JSON value is simply not in the Python string set. -/
def validCategory : Json → Bool
  | .str s => s == "bug_fix" || s == "gotcha" || s == "implementation"
  | _ => false

/-- One element of the `"learnings"` array (`extraction/learning.py`):
records with a category outside the closed set are dropped individually. -/
def parseLearningItem (sid : String) (item : Json) :
    Except PyErr (Option Learning) := do
  let cat ← pyDictGet item "category" (.str "")
  if validCategory cat then do
    let ej ← pyDictGet item "entities" (.arr [])
    let elist ← pyIter ej
    let ents ← mapExcept parseEntity elist
    let summary ← pyDictGet item "summary" (.str "")
    let detail ← pyDictGet item "detail" (.str "")
    let comps ← pyDictGet item "components" (.arr [])
    pure (some { source_id := sid, category := cat, summary := summary,
                 detail := detail, components := comps, entities := ents })
  else
    pure none

/-- `_parse_response` for the learning extractor, from `json.loads` on. -/
def parseLearningsJson (loaded : Option Json) (sid : String) :
    Except PyErr (List Learning) :=
  match loaded with
  | none => .ok []
  | some data => do
    let lv ← pyDictGet data "learnings" (.arr [])
    let items ← pyIter lv
    let opts ← mapExcept (parseLearningItem sid) items
    pure (opts.filterMap id)

/-- `response.content` handling shared by the extractors: an empty content
list yields zero records, otherwise the first block's text is parsed. -/
def parseResponseContent (content : List (Option Json)) (sid dd : String) :
    Except PyErr (List Decision) :=
  match content with
  | [] => .ok []
  | j :: _ => parseDecisionsJson j sid dd

/-- `response.content` handling for the learning extractor. -/
def parseLearningContent (content : List (Option Json)) (sid : String) :
    Except PyErr (List Learning) :=
  match content with
  | [] => .ok []
  | j :: _ => parseLearningsJson j sid

/-! ### Well-shapedness of decoded responses

These predicates delimit a class of decoded JSON responses on which the
parsers provably raise nothing: the documented response shape with any
subset of the optional fields missing. -/

/-- An element of an `"entities"` array that the parser accepts: a dict
containing at least a `"name"` key. -/
def entityJsonOk : Json → Bool
  | .obj fields => (jlookup fields "name").isSome
  | _ => false

/-- The `"entities"` field of an item is absent or an array of acceptable
entity objects. -/
def entitiesFieldOk (fields : List (String × Json)) : Bool :=
  match jlookup fields "entities" with
  | none => true
  | some (.arr es) => es.all entityJsonOk
  | some _ => false

/-- An element of the `"decisions"` array that is parsed without raising. -/
def decisionItemOk : Json → Bool
  | .obj fields => entitiesFieldOk fields
  | _ => false

/-- A decoded decision-extraction response body that is parsed without
raising: a dict whose `"decisions"` field, when present, is an array of
acceptable items. -/
def decisionsPayloadOk : Json → Bool
  | .obj fields =>
    match jlookup fields "decisions" with
    | none => true
    | some (.arr items) => items.all decisionItemOk
    | some _ => false
  | _ => false

/-- An element of the `"learnings"` array that is parsed without raising:
items whose category falls outside the closed set are skipped before
their entities are ever touched. -/
def learningItemOk : Json → Bool
  | .obj fields =>
    !validCategory ((jlookup fields "category").getD (.str "")) ||
      entitiesFieldOk fields
  | _ => false

/-- A decoded learning-extraction response body that is parsed without
raising. -/
def learningsPayloadOk : Json → Bool
  | .obj fields =>
    match jlookup fields "learnings" with
    | none => true
    | some (.arr items) => items.all learningItemOk
    | some _ => false
  | _ => false

/-! ### Python-like text primitives

The repository manipulates `str` values; the embedding works on the
underlying character lists.  Character classes follow Python's behavior on
the ASCII range (all inputs appearing in the repository and in the claims
are ASCII). -/

/-- Python's `\s` class / `str.strip` whitespace, ASCII range. -/
def pySpace (c : Char) : Bool :=
  c == ' ' || c == '\t' || c == '\n' || c == '\r' || c == '\x0b' || c == '\x0c'

/-- Python `str.lower`, ASCII range. -/
def pyLowerChar (c : Char) : Char :=
  if 'A' ≤ c ∧ c ≤ 'Z' then Char.ofNat (c.toNat + 32) else c

/-- Python `str.lower` over a whole string. -/
def pyLower (s : String) : String := ⟨s.data.map pyLowerChar⟩

/-- Python `str.isalnum`, ASCII range. -/
def pyIsAlnumChar (c : Char) : Bool :=
  (decide ('a' ≤ c) && decide (c ≤ 'z')) ||
    (decide ('A' ≤ c) && decide (c ≤ 'Z')) ||
    (decide ('0' ≤ c) && decide (c ≤ '9'))

/-- A decimal digit (regex `\d`, ASCII). -/
def isDigitChar (c : Char) : Bool := decide ('0' ≤ c) && decide (c ≤ '9')

/-- Regex `\w` (word character), ASCII range. -/
def isWordChar (c : Char) : Bool := pyIsAlnumChar c || c == '_'

/-- Python `str.strip()` on a character list. -/
def stripChars (xs : List Char) : List Char :=
  ((xs.dropWhile pySpace).reverse.dropWhile pySpace).reverse

/-- Python `str.strip()`. -/
def pyStrip (s : String) : String := ⟨stripChars s.data⟩

/-- Split a character list at every separator satisfying `p`
(Python `str.split(sep)` semantics: empty chunks are kept). -/
def splitOnPred (p : Char → Bool) (xs : List Char) : List (List Char) :=
  xs.foldr (fun c acc =>
    if p c then [] :: acc
    else
      match acc with
      | [] => [[c]]
      | y :: ys => (c :: y) :: ys) [[]]

/-- Python `s.split("\n")`; also models where `re.MULTILINE` anchors fall. -/
def pyLines (s : String) : List String :=
  (splitOnPred (fun c => c == '\n') s.data).map String.mk

/-- Python `s.split()` with no argument: split on whitespace runs and drop
empty tokens. -/
def pyTokens (s : String) : List String :=
  ((splitOnPred pySpace s.data).map String.mk).filter (fun t => t ≠ "")

/-- Substring test, i.e. Python `needle in hay` on strings. -/
def listHasInfix (needle : List Char) : List Char → Bool
  | [] => needle.isEmpty
  | c :: rest => needle.isPrefixOf (c :: rest) || listHasInfix needle rest

/-- Python `needle in hay`. -/
def pyInStr (needle hay : String) : Bool := listHasInfix needle.data hay.data

/-- Prefix test on strings. -/
def strStarts (p s : String) : Bool := p.data.isPrefixOf s.data

/-- Python `sep.join(parts)`. -/
def joinWith (sep : String) : List String → String
  | [] => ""
  | [x] => x
  | x :: y :: rest => x ++ sep ++ joinWith sep (y :: rest)

/-- First hit of a partial function over a list. -/
def firstSome {α β : Type} (f : α → Option β) : List α → Option β
  | [] => none
  | x :: xs =>
    match f x with
    | some y => some y
    | none => firstSome f xs

/-- Python `s.split("\n\n")` (leftmost, non-overlapping). -/
def splitDoubleNl : List Char → List (List Char)
  | [] => [[]]
  | [c] => [[c]]
  | c :: c2 :: rest =>
    if c = '\n' ∧ c2 = '\n' then [] :: splitDoubleNl rest
    else
      match splitDoubleNl (c2 :: rest) with
      | [] => [[c]]
      | y :: ys => (c :: y) :: ys

/-! ### ADR extraction (`extraction/adr.py`)

The regexes of `adr.py` are specialised, not interpreted: each pattern in
`SECTION_PATTERNS` has the shape `^##\s*WORDS\s*$` (IGNORECASE,
MULTILINE), which a line matches exactly when it starts with `##` and its
remaining whitespace-separated tokens, lowercased, equal one of the
pattern's word lists.  Match *end* offsets differ from the end-of-line
position only by whitespace, which the subsequent `.strip()` erases, so
sections are sliced on line boundaries. -/

/-- Which section (if any) a heading-token list names; the alternatives
reproduce `SECTION_PATTERNS` in dict order.  No token list matches two
different section names, so per-line resolution agrees with the
sort-by-position pass of `_parse_sections`. -/
def sectionNameOfTokens (toks : List String) : Option String :=
  if toks = ["status"] then some "status"
  else if toks = ["context"] ∨ toks = ["context", "and", "problem", "statement"] then
    some "context"
  else if toks = ["decision"] ∨ toks = ["decision", "outcome"] ∨
      toks = ["chosen", "option"] then
    some "decision"
  else if toks = ["consequences"] then some "consequences"
  else if toks = ["options"] ∨ toks = ["option"] ∨
      toks = ["considered", "options"] ∨ toks = ["considered", "option"] ∨
      toks = ["alternatives"] ∨ toks = ["alternatives", "considered"] then
    some "alternatives"
  else none

/-- The section name a single line's heading matches, if any. -/
def headingName (line : String) : Option String :=
  if strStarts "##" line then
    sectionNameOfTokens (pyTokens (pyLower ⟨line.data.drop 2⟩))
  else none

/-- All heading matches with their line numbers, in document order
(the `heading_positions` list after its stable sort by offset). -/
def headingPositions (lines : List String) : List (Nat × String) :=
  lines.enum.filterMap (fun p => (headingName p.2).map (fun n => (p.1, n)))

/-- `content[end:next_start].strip()` on line boundaries: the lines
strictly between heading line `i` and line `j`, joined and stripped. -/
def sliceLines (lines : List String) (i j : Nat) : String :=
  pyStrip (joinWith "\n" ((lines.drop (i + 1)).take (j - (i + 1))))

/-- Text between consecutive headings (the slicing loop of
`_parse_sections`). -/
def sectionSlices (lines : List String) : List (Nat × String) → List (String × String)
  | [] => []
  | (i, name) :: rest =>
    let j :=
      match rest with
      | [] => lines.length
      | (j, _) :: _ => j
    (name, sliceLines lines i j) :: sectionSlices lines rest

/-- Keep only the first occurrence of each section name. -/
def keepFirst : List (String × String) → List String → List (String × String)
  | [], _ => []
  | (k, v) :: rest, seen =>
    if k ∈ seen then keepFirst rest seen
    else (k, v) :: keepFirst rest (k :: seen)

/-- `_parse_sections`. -/
def adrParseSections (content : String) : List (String × String) :=
  let lines := pyLines content
  keepFirst (sectionSlices lines (headingPositions lines)) []

/-- Assoc lookup on the parsed sections (Python dict `.get`). -/
def slookup : List (String × String) → String → Option String
  | [], _ => none
  | (k, v) :: rest, key => if k = key then some v else slookup rest key

/-- `sections.get(key, "")`; Python truthiness of `sections.get(key)`
is `getSec secs key ≠ ""`. -/
def getSec (secs : List (String × String)) (key : String) : String :=
  (slookup secs key).getD ""

/-- `^#\s+(.+)$` on one line: a `#` followed by whitespace and at least
one more character; the stripped capture equals the line's tail
stripped. -/
def h1Title (line : String) : Option String :=
  match line.data with
  | '#' :: c :: rest =>
    if pySpace c then some ⟨stripChars (c :: rest)⟩ else none
  | _ => none

/-- Branch `ADR[-\s]*\d+[:\s]*` of the title-prefix regex. -/
def dropAdrNumPrefix (xs : List Char) : Option (List Char) :=
  match xs with
  | 'A' :: 'D' :: 'R' :: rest =>
    let rest2 := rest.dropWhile (fun c => c == '-' || pySpace c)
    if rest2.takeWhile isDigitChar = [] then none
    else some ((rest2.dropWhile isDigitChar).dropWhile (fun c => c == ':' || pySpace c))
  | _ => none

/-- Branch `[\d]+\.\s*` of the title-prefix regex. -/
def dropNumDotPrefix (xs : List Char) : Option (List Char) :=
  if xs.takeWhile isDigitChar = [] then none
  else
    match xs.dropWhile isDigitChar with
    | '.' :: rest => some (rest.dropWhile pySpace)
    | _ => none

/-- `re.sub(r"^(?:ADR[-\s]*\d+[:\s]*|[\d]+\.\s*)", "", title)`. -/
def stripTitlePrefix (t : String) : String :=
  match dropAdrNumPrefix t.data with
  | some rest => ⟨rest⟩
  | none =>
    match dropNumDotPrefix t.data with
    | some rest => ⟨rest⟩
    | none => t

/-- `_extract_title`. -/
def adrExtractTitle (content : String) : String :=
  match firstSome h1Title (pyLines content) with
  | some t => pyStrip (stripTitlePrefix t)
  | none =>
    match firstSome
        (fun l => let l' := pyStrip l; if l' ≠ "" then some l' else none)
        (pyLines content) with
    | some l => l
    | none => "Untitled ADR"

/-- `_build_summary`. -/
def adrBuildSummary (secs : List (String × String)) (title : String) : String :=
  let dtext := getSec secs "decision"
  if dtext ≠ "" then
    let firstPara := pyStrip ⟨(splitDoubleNl dtext.data).headD []⟩
    if firstPara.data.length ≤ 300 then firstPara
    else ⟨firstPara.data.take 297⟩ ++ "..."
  else title

/-- `^[\s]*(?:[-*]|\d+\.)\s+(.+)$` on one line, with the subsequent
strip-and-drop-empty applied. -/
def altItemOfLine (line : String) : Option String :=
  let xs := line.data.dropWhile pySpace
  let afterMarker : Option (List Char) :=
    match xs with
    | '-' :: rest => some rest
    | '*' :: rest => some rest
    | _ =>
      if xs.takeWhile isDigitChar = [] then none
      else
        match xs.dropWhile isDigitChar with
        | '.' :: rest => some rest
        | _ => none
  match afterMarker with
  | none => none
  | some rest =>
    match rest with
    | c :: _ :: _ =>
      if pySpace c then
        let item := stripChars rest
        if item ≠ [] then some ⟨item⟩ else none
      else none
    | _ => none

/-- `_extract_alternatives`. -/
def adrExtractAlternatives (text : String) : List String :=
  if text = "" then []
  else (pyLines text).filterMap altItemOfLine

/-- The keyword dictionaries of `_extract_entities_from_text`
(`tech_keywords` then `pattern_keywords`, in source order; keys are
unique, so the `seen` set of the source never fires). -/
def adrKeywords : List (String × String) :=
  [("postgresql", "technology"), ("postgres", "technology"),
   ("mysql", "technology"), ("mongodb", "technology"),
   ("sqlite", "technology"), ("redis", "technology"),
   ("elasticsearch", "technology"), ("dynamodb", "technology"),
   ("cassandra", "technology"), ("react", "technology"),
   ("vue", "technology"), ("angular", "technology"),
   ("svelte", "technology"), ("next.js", "technology"),
   ("nextjs", "technology"), ("django", "technology"),
   ("flask", "technology"), ("fastapi", "technology"),
   ("express", "technology"), ("spring", "technology"),
   ("rails", "technology"), ("docker", "technology"),
   ("kubernetes", "technology"), ("k8s", "technology"),
   ("terraform", "technology"), ("aws", "technology"),
   ("gcp", "technology"), ("azure", "technology"),
   ("graphql", "technology"), ("grpc", "technology"),
   ("rest", "technology"), ("kafka", "technology"),
   ("rabbitmq", "technology"), ("typescript", "technology"),
   ("python", "technology"), ("java", "technology"),
   ("go", "technology"), ("rust", "technology"),
   ("node.js", "technology"), ("nodejs", "technology"),
   ("microservice", "pattern"), ("monolith", "pattern"),
   ("serverless", "pattern"), ("event-driven", "pattern"),
   ("cqrs", "pattern"), ("event sourcing", "pattern"),
   ("saga", "pattern"), ("circuit breaker", "pattern"),
   ("api gateway", "pattern"), ("pub/sub", "pattern"),
   ("message queue", "pattern")]

/-- `\b` holds at a position whose outer neighbour is absent or a
non-word character (every keyword starts and ends with a word
character). -/
def boundaryOk : Option Char → Bool
  | none => true
  | some c => !isWordChar c

/-- The keyword matches at the head of `xs` with a word boundary after. -/
def kwAt (kw xs : List Char) : Bool :=
  kw.isPrefixOf xs && boundaryOk ((xs.drop kw.length).head?)

/-- `re.search(r"\b" + re.escape(kw) + r"\b", text)`, scanning left to
right with the previous character threaded for the left boundary. -/
def kwSearch (kw : List Char) : Option Char → List Char → Bool
  | prev, [] => boundaryOk prev && kwAt kw []
  | prev, c :: rest =>
    (boundaryOk prev && kwAt kw (c :: rest)) || kwSearch kw (some c) rest

/-- Word-bounded containment of a keyword in (already lowered) text. -/
def wordBoundedContains (text kw : String) : Bool :=
  kwSearch kw.data none text.data

/-- `_extract_entities_from_text`. -/
def adrExtractEntities (text : String) : List JEntity :=
  let tl := pyLower text
  (adrKeywords.filter (fun kv => wordBoundedContains tl kv.1)).map
    (fun kv => { name := .str kv.1, entity_type := .str kv.2 })

/-- `_assess_confidence`. -/
def adrAssessConfidence (secs : List (String × String)) : String :=
  let hd := getSec secs "decision" != ""
  let hc := getSec secs "context" != ""
  let ha := getSec secs "alternatives" != ""
  if hd && hc && ha then "high"
  else if hd && hc then "high"
  else if hd || hc then "medium"
  else "low"

/-- `\d{4}-\d{2}-\d{2}` anchored at the head of `xs`, with the right
word boundary checked. -/
def dateAt (xs : List Char) : Option (List Char) :=
  match xs with
  | a :: b :: c :: d :: '-' :: e :: f :: '-' :: g :: h :: rest =>
    if [a, b, c, d, e, f, g, h].all isDigitChar && boundaryOk rest.head? then
      some [a, b, c, d, '-', e, f, '-', g, h]
    else none
  | _ => none

/-- Leftmost search for the date pattern (`_extract_date`). -/
def dateSearch : Option Char → List Char → Option (List Char)
  | _, [] => none
  | prev, c :: rest =>
    match (if boundaryOk prev then dateAt (c :: rest) else none) with
    | some d => some d
    | none => dateSearch (some c) rest

/-- `_extract_date`. -/
def adrExtractDate (content : String) : String :=
  match dateSearch none content.data with
  | some d => ⟨d⟩
  | none => ""

/-- `Source` (the wall-clock `fetched_at` is omitted). -/
structure Source where
  id : String
  source_type : String
  repo : String
  url : String
  title : String
  raw_content : String

/-- The item shape handed to the ADR extractor (`ADRData`). -/
structure ADRData where
  path : String
  url : String
  content : String

/-- `extract_adr_decisions`. -/
def extractAdrDecisions (adr : ADRData) (repo : String) : Source × List Decision :=
  let source : Source :=
    { id := "adr:" ++ adr.path, source_type := "adr", repo := repo,
      url := adr.url, title := adrExtractTitle adr.content,
      raw_content := adr.content }
  let secs := adrParseSections adr.content
  if getSec secs "decision" = "" ∧ getSec secs "context" = "" then
    (source, [])
  else
    let summary := adrBuildSummary secs source.title
    let reasoning := getSec secs "context"
    let alternatives := adrExtractAlternatives (getSec secs "alternatives")
    let entities := adrExtractEntities
      (summary ++ " " ++ reasoning ++ " " ++ getSec secs "alternatives")
    (source,
     [{ source_id := source.id,
        summary := .str summary,
        reasoning := .str reasoning,
        alternatives := .arr (alternatives.map .str),
        entities := entities,
        confidence := .str (adrAssessConfidence secs),
        decision_date := adrExtractDate adr.content }])

/-! ### Retrieval engine (`query/engine.py`) and validator retrieval
(`query/validator.py`)

The SQLite repository is modelled two ways: `StoreOps` packages the four
repository calls the retrieval code makes (the FTS5 `MATCH` engine lives
inside SQLite and is an external collaborator, so `search_decisions` stays
an abstract function), and `storeOps` instantiates the three non-FTS calls
from a concrete list of decision rows following the SQL in
`storage/repository.py`.  A `Row` carries the fields the retrieval logic
reads: the decision id, its extraction timestamp (used by `ORDER BY
extracted_at DESC`), and its entity tag names. -/

/-- A decision row as returned by the repository queries (already joined
with its source; columns not read by the retrieval logic are omitted). -/
structure Row where
  id : String
  extracted_at : Nat
  entities : List String
deriving Repr, DecidableEq

/-- The repository operations used by `_find_relevant_decisions`. -/
structure StoreOps where
  search_decisions : String → Nat → List Row
  get_decisions_by_entity : String → List Row
  get_all_decisions : Nat → List Row
  get_entities : List String

/-- The stop-word set of `QueryEngine._build_fts_query`. -/
def engineStopWords : List String :=
  ["why", "did", "we", "the", "a", "an", "is", "are", "was", "were",
   "do", "does", "how", "what", "when", "where", "which", "who",
   "our", "their", "this", "that", "for", "with", "from", "about",
   "use", "using", "used", "choose", "chose", "chosen", "pick",
   "picked", "decide", "decided", "should", "would", "could",
   "have", "has", "had", "not", "and", "or", "but", "in", "on",
   "to", "of", "it", "its", "be", "been", "being"]

/-- The stop-word set of `DecisionValidator._build_fts_query`. -/
def validatorStopWords : List String :=
  ["i", "plan", "to", "will", "am", "going", "want", "need",
   "the", "a", "an", "is", "are", "was", "were", "be", "been",
   "do", "does", "did", "have", "has", "had", "this", "that",
   "for", "with", "from", "about", "use", "using", "add",
   "new", "create", "build", "implement", "make", "and", "or",
   "but", "in", "on", "of", "it", "its", "we", "our", "not"]

/-- The word loop shared by both `_build_fts_query` implementations. -/
def ftsWords (stops : List String) (text : String) : List String :=
  (pyTokens (pyLower text)).filterMap (fun w =>
    let cleaned : String := ⟨w.data.filter pyIsAlnumChar⟩
    if cleaned ≠ "" ∧ cleaned ∉ stops ∧ cleaned.data.length > 2 then some cleaned
    else none)

/-- `QueryEngine._build_fts_query`. -/
def engineBuildFtsQuery (question : String) : String :=
  let ws := ftsWords engineStopWords question
  if ws = [] then "" else joinWith " OR " ws

/-- `DecisionValidator._build_fts_query`. -/
def validatorBuildFtsQuery (text : String) : String :=
  let ws := ftsWords validatorStopWords text
  if ws = [] then "" else joinWith " OR " ws

/-- `QueryEngine._extract_query_entities`: a stored name is kept when it
occurs, **as stored**, inside the lowercased question. -/
def engineExtractQueryEntities (known : List String) (question : String) :
    List String :=
  let ql := pyLower question
  known.filter (fun e => pyInStr e ql)

/-- `DecisionValidator._extract_entities`: here the stored name is
lowercased before the containment test. -/
def validatorExtractEntities (known : List String) (text : String) :
    List String :=
  let tl := pyLower text
  known.filter (fun e => pyInStr (pyLower e) tl)

/-- The `seen_ids` / `results` accumulation loop: rows are appended
unless their id was already collected. -/
def addRows : List String × List Row → List Row → List String × List Row
  | acc, [] => acc
  | (seen, results), r :: rest =>
    if r.id ∈ seen then addRows (seen, results) rest
    else addRows (r.id :: seen, results ++ [r]) rest

/-- `QueryEngine._find_relevant_decisions` before the final `[:15]` cap. -/
def engineCandidates (ops : StoreOps) (question : String) : List Row :=
  let fq := engineBuildFtsQuery question
  let acc0 : List String × List Row := ([], [])
  let acc1 := if fq ≠ "" then addRows acc0 (ops.search_decisions fq 10) else acc0
  let ents := engineExtractQueryEntities ops.get_entities question
  let acc2 := ents.foldl (fun a e => addRows a (ops.get_decisions_by_entity e)) acc1
  if acc2.2 = [] then ops.get_all_decisions 10 else acc2.2

/-- `QueryEngine._find_relevant_decisions`. -/
def engineFindRelevant (ops : StoreOps) (question : String) : List Row :=
  (engineCandidates ops question).take 15

/-- `DecisionValidator._find_relevant_decisions` before the `[:20]` cap. -/
def validatorCandidates (ops : StoreOps) (approach : String) : List Row :=
  let fq := validatorBuildFtsQuery approach
  let acc0 : List String × List Row := ([], [])
  let acc1 := if fq ≠ "" then addRows acc0 (ops.search_decisions fq 15) else acc0
  let ents := validatorExtractEntities ops.get_entities approach
  let acc2 := ents.foldl (fun a e => addRows a (ops.get_decisions_by_entity e)) acc1
  let acc3 :=
    if acc2.2.length < 3 then addRows acc2 (ops.get_all_decisions 15) else acc2
  acc3.2

/-- `DecisionValidator._find_relevant_decisions`. -/
def validatorFindRelevant (ops : StoreOps) (approach : String) : List Row :=
  (validatorCandidates ops approach).take 20

/-- Stable insertion keeping larger `extracted_at` first (`ORDER BY
d.extracted_at DESC`; SQLite leaves the order of ties unspecified, the
model keeps earlier-listed rows first and no property below depends on
tie order). -/
def insertByRecent : Row → List Row → List Row
  | r, [] => [r]
  | r, x :: xs =>
    if x.extracted_at ≥ r.extracted_at then x :: insertByRecent r xs
    else r :: x :: xs

/-- Sort rows by extraction time, most recent first. -/
def sortByRecent (rows : List Row) : List Row := rows.foldr insertByRecent []

/-- `Repository.get_all_decisions(limit=...)`. -/
def storeGetAllDecisions (rows : List Row) (limit : Nat) : List Row :=
  (sortByRecent rows).take limit

/-- `Repository.get_decisions_by_entity` (`WHERE LOWER(de.entity) =
LOWER(?) ORDER BY d.extracted_at DESC`). -/
def storeGetByEntity (rows : List Row) (name : String) : List Row :=
  sortByRecent (rows.filter (fun r => r.entities.any (fun t => pyLower t == pyLower name)))

/-- Deduplication preserving first occurrences. -/
def dedupeStrsGo : List String → List String → List String
  | _, [] => []
  | seen, x :: xs =>
    if x ∈ seen then dedupeStrsGo seen xs
    else x :: dedupeStrsGo (x :: seen) xs

/-- Deduplicate a list of strings. -/
def dedupeStrs (xs : List String) : List String := dedupeStrsGo [] xs

/-- Number of decisions tagged with an entity name. -/
def entityCount (rows : List Row) (name : String) : Nat :=
  (rows.filter (fun r => name ∈ r.entities)).length

/-- Stable insertion by descending decision count. -/
def insertByCount (rows : List Row) (e : String) : List String → List String
  | [] => [e]
  | x :: xs =>
    if entityCount rows x ≥ entityCount rows e then x :: insertByCount rows e xs
    else e :: x :: xs

/-- `Repository.get_entities()`: the distinct tag names ordered by
descending decision count (the retrieval code reads only the `entity`
column; SQLite's tie order is again unspecified). -/
def storeGetEntities (rows : List Row) : List String :=
  (dedupeStrs ((rows.map (fun r => r.entities)).flatten)).foldr (insertByCount rows) []

/-- The repository calls derived from a concrete row store, with the FTS5
match engine supplied as a collaborator function. -/
def storeOps (rows : List Row) (fts : String → Nat → List Row) : StoreOps :=
  { search_decisions := fts,
    get_decisions_by_entity := storeGetByEntity rows,
    get_all_decisions := storeGetAllDecisions rows,
    get_entities := storeGetEntities rows }

/-! ### Completion calls and the retry loop

`client.messages.create` is an external collaborator; one run of a
pipeline is parameterised by the outcome of each successive call
(`attempts n` is what the `n`-th call would do).  A successful call
carries `response.content` as the list of its text blocks, each block
already decoded as in `parseDecisionsJson` (`none` = text that is not
valid JSON).  The second component of every pipeline result counts the
completion calls issued. -/

/-- Outcome of one completion call: `RateLimitError`, any other
`APIError` (with its message text), or a successful response. -/
inductive CallOutcome where
  | rateLimited
  | apiError (msg : String)
  | success (content : List (Option Json))

/-- How the `for attempt in range(MAX_RETRIES)` loop ends. -/
inductive LoopOutcome where
  | answered (content : List (Option Json))
  | rateLimitedOut
  | apiErrorOut (msg : String)

/-- `MAX_RETRIES` (the same value at all four call sites). -/
def MAX_RETRIES : Nat := 3

/-- The retry loop from attempt `i` with `r` attempts remaining; on a
rate limit the loop sleeps and continues unless this was the final
attempt. -/
def retryLoopGo (attempts : Nat → CallOutcome) : Nat → Nat → LoopOutcome × Nat
  | _, 0 => (.rateLimitedOut, 0)
  | i, r + 1 =>
    match attempts i with
    | .success c => (.answered c, i + 1)
    | .apiError m => (.apiErrorOut m, i + 1)
    | .rateLimited =>
      if r = 0 then (.rateLimitedOut, i + 1) else retryLoopGo attempts (i + 1) r

/-- The whole `for attempt in range(MAX_RETRIES)` loop, returning how it
ended and how many calls were made. -/
def retryLoop (attempts : Nat → CallOutcome) : LoopOutcome × Nat :=
  retryLoopGo attempts 0 MAX_RETRIES

/-! ### PR extraction pipeline (`extraction/pr.py`) -/

/-- The item shape handed to the PR extractor (`PRData`); an empty
`body` models Python `None`/`""` (both falsy). -/
structure PRData where
  number : Nat
  title : String
  body : String
  url : String
  merged_at : String
  review_comments : List String
  commit_messages : List String

/-- `_build_pr_text`. -/
def buildPrText (pr : PRData) : String :=
  let parts := ["# " ++ pr.title ++ "\n"]
  let parts := if pr.body ≠ "" then parts ++ [pr.body] else parts
  let parts :=
    if pr.review_comments ≠ [] then
      parts ++ ["\n## Review Comments\n"] ++
        ((pr.review_comments.take 10).map (fun c => "- " ++ c))
    else parts
  joinWith "\n" parts

/-- The eagerly built `Source` of `extract_pr_decisions`. -/
def buildPrSource (pr : PRData) (repo : String) : Source :=
  { id := "pr:" ++ toString pr.number, source_type := "pr", repo := repo,
    url := pr.url, title := pr.title, raw_content := buildPrText pr }

/-- `extract_pr_decisions` (the prompt string is consumed only by the
completion collaborator and is not modelled). -/
def extractPrDecisions (attempts : Nat → CallOutcome) (pr : PRData)
    (repo : String) : Except PyErr (Source × List Decision) × Nat :=
  let source := buildPrSource pr repo
  match retryLoop attempts with
  | (.answered content, n) =>
    ((parseResponseContent content source.id pr.merged_at).map
      (fun ds => (source, ds)), n)
  | (.rateLimitedOut, n) => (.ok (source, []), n)
  | (.apiErrorOut _, n) => (.ok (source, []), n)

/-! ### Session learning pipeline (`extraction/learning.py`) -/

/-- The `session_metadata` dict: `none` models an absent key (&#8800; a
present empty string, which `dict.get` with a default does not replace). -/
structure SessionMeta where
  session_id : Option String
  agent : Option String
  branch : Option String
  prompt : Option String
  summary : Option String
  files_touched : List String

/-- Python truthiness of an optional string. -/
def optTruthy : Option String → Bool
  | some s => s != ""
  | none => false

/-- `first_line[:77] + "..."` when longer than 80 characters. -/
def truncate80 (s : String) : String :=
  if s.data.length > 80 then ⟨s.data.take 77⟩ ++ "..." else s

/-- `_build_title` of `learning.py`. -/
def buildLearningTitle (meta : SessionMeta) : String :=
  let agent := meta.agent.getD "unknown"
  if optTruthy meta.prompt then
    "[" ++ agent ++ "] " ++
      truncate80 (pyStrip ((pyLines (meta.prompt.getD "")).headD ""))
  else if optTruthy meta.summary then
    "[" ++ agent ++ "] " ++ truncate80 (meta.summary.getD "")
  else
    "[" ++ agent ++ "] Session " ++ ⟨(meta.session_id.getD "unknown").data.take 8⟩

/-- The eagerly built `Source` of `extract_session_learnings`;
`freshHex` stands for the `uuid4().hex[:12]` drawn when the metadata has
no session id. -/
def buildLearningSource (meta : SessionMeta) (transcript repo freshHex : String) :
    Source :=
  { id := "learning:" ++ meta.session_id.getD freshHex,
    source_type := "learning", repo := repo, url := "",
    title := buildLearningTitle meta,
    raw_content := ⟨transcript.data.take 5000⟩ }

/-- `extract_session_learnings`. -/
def extractSessionLearnings (attempts : Nat → CallOutcome)
    (transcript repo : String) (meta : SessionMeta) (freshHex : String) :
    Except PyErr (Source × List Learning) × Nat :=
  let source := buildLearningSource meta transcript repo freshHex
  match retryLoop attempts with
  | (.answered content, n) =>
    ((parseLearningContent content source.id).map (fun ls => (source, ls)), n)
  | (.rateLimitedOut, n) => (.ok (source, []), n)
  | (.apiErrorOut _, n) => (.ok (source, []), n)

/-! ### Approach validation (`query/validator.py`) -/

/-- `ConflictDetail`; the dataclass stores whatever JSON values the model
returned. -/
structure ConflictDetail where
  decision_summary : Json
  source_url : Json
  explanation : Json
  severity : Json

/-- `ValidationResult`; the dataclass list defaults `[]` are modelled as
`Json.arr []` and the string default as `Json.str`. -/
structure ValidationResult where
  proposed_approach : String
  verdict : Json
  conflicts : List ConflictDetail
  alignments : Json
  warnings : Json
  recommendation : Json
  decisions_checked : Nat

/-- One element of the `"conflicts"` array. -/
def parseConflictItem (c : Json) : Except PyErr ConflictDetail := do
  let ds ← pyDictGet c "decision_summary" (.str "")
  let su ← pyDictGet c "source_url" (.str "")
  let ex ← pyDictGet c "explanation" (.str "")
  let sv ← pyDictGet c "severity" (.str "soft")
  pure { decision_summary := ds, source_url := su, explanation := ex,
         severity := sv }

/-- `DecisionValidator._parse_response`, from the `json.loads` step on. -/
def validatorParseJson (loaded : Option Json) (pa : String) (dc : Nat) :
    Except PyErr ValidationResult :=
  match loaded with
  | none =>
    .ok { proposed_approach := pa, verdict := .str "NO_COVERAGE",
          conflicts := [], alignments := .arr [], warnings := .arr [],
          recommendation :=
            .str "Validation response was not parseable. Proceed with caution.",
          decisions_checked := dc }
  | some data => do
    let cv ← pyDictGet data "conflicts" (.arr [])
    let cl ← pyIter cv
    let conflicts ← mapExcept parseConflictItem cl
    let verdict ← pyDictGet data "verdict" (.str "NO_COVERAGE")
    let alignments ← pyDictGet data "alignments" (.arr [])
    let warnings ← pyDictGet data "warnings" (.arr [])
    let recommendation ← pyDictGet data "recommendation" (.str "")
    pure { proposed_approach := pa, verdict := verdict, conflicts := conflicts,
           alignments := alignments, warnings := warnings,
           recommendation := recommendation, decisions_checked := dc }

/-- `DecisionValidator._run_validation` (prompt construction is consumed
only by the completion collaborator and is not modelled). -/
def runValidation (llm : Nat → CallOutcome) (pa _ctx : String)
    (decisions : List Row) : Except PyErr ValidationResult × Nat :=
  match retryLoop llm with
  | (.answered content, n) =>
    (match content with
     | [] =>
       .ok { proposed_approach := pa, verdict := .str "NO_COVERAGE",
             conflicts := [], alignments := .arr [], warnings := .arr [],
             recommendation := .str "No response from API.",
             decisions_checked := decisions.length }
     | j :: _ => validatorParseJson j pa decisions.length, n)
  | (.rateLimitedOut, n) =>
    (.ok { proposed_approach := pa, verdict := .str "NO_COVERAGE",
           conflicts := [], alignments := .arr [], warnings := .arr [],
           recommendation :=
             .str "Unable to validate: API rate limit exceeded. Try again later.",
           decisions_checked := decisions.length }, n)
  | (.apiErrorOut m, n) =>
    (.ok { proposed_approach := pa, verdict := .str "NO_COVERAGE",
           conflicts := [], alignments := .arr [], warnings := .arr [],
           recommendation := .str ("Unable to validate due to API error: " ++ m),
           decisions_checked := decisions.length }, n)

/-- `DecisionValidator.validate`. -/
def validate (ops : StoreOps) (llm : Nat → CallOutcome) (pa ctx : String) :
    Except PyErr ValidationResult × Nat :=
  let decisions := validatorFindRelevant ops pa
  if decisions = [] then
    (.ok { proposed_approach := pa, verdict := .str "NO_COVERAGE",
           conflicts := [], alignments := .arr [], warnings := .arr [],
           recommendation := .str
             ("No engineering decisions exist for this area. " ++
              "Proceed with your best judgment, but consider documenting " ++
              "this choice as a new decision for the team."),
           decisions_checked := 0 }, 0)
  else runValidation llm pa ctx decisions

/-! ### Store upserts (`storage/repository.py`, `storage/db.py`)

`save_decision` touches the `decisions` table and the
`decision_entities` junction table.  Tables are modelled as row lists;
`INSERT OR REPLACE` removes any row with the conflicting primary key and
appends the new one, `INSERT OR IGNORE` skips the insert when the primary
key `(decision_id, entity)` is already present.  The `alternatives`
column stores `json.dumps(decision.alternatives)`; `json.dumps` is
injective on lists of strings, so the column is modelled by the list
itself. -/

/-- The Python `Entity` value as bound into SQL (string fields). -/
structure DbEntity where
  name : String
  entity_type : String
deriving Repr, DecidableEq

/-- The Python `Decision` value handed to `save_decision` (string
fields, as bound into SQL; `extracted_at` omitted as before). -/
structure DbDecision where
  id : String
  source_id : String
  summary : String
  reasoning : String
  alternatives : List String
  entities : List DbEntity
  confidence : String
  decision_date : String
deriving Repr, DecidableEq

/-- A row of the `decisions` table. -/
structure DbDecisionRow where
  id : String
  source_id : String
  summary : String
  reasoning : String
  alternatives : List String
  confidence : String
  decision_date : String
deriving Repr, DecidableEq

/-- A row of the `decision_entities` junction table. -/
structure EntityRow where
  decision_id : String
  entity : String
  entity_type : String
deriving Repr, DecidableEq

/-- The column values bound by the `INSERT OR REPLACE INTO decisions`. -/
def toDecisionRow (d : DbDecision) : DbDecisionRow :=
  { id := d.id, source_id := d.source_id, summary := d.summary,
    reasoning := d.reasoning, alternatives := d.alternatives,
    confidence := d.confidence, decision_date := d.decision_date }

/-- The two tables `save_decision` writes. -/
structure DbState where
  decisions : List DbDecisionRow
  decision_entities : List EntityRow
deriving Repr, DecidableEq

/-- The `INSERT OR IGNORE INTO decision_entities` loop. -/
def insertEntityRows (did : String) (es : List DbEntity)
    (tbl : List EntityRow) : List EntityRow :=
  es.foldl (fun t e =>
    if t.any (fun r => r.decision_id == did && r.entity == e.name) then t
    else t ++ [{ decision_id := did, entity := e.name,
                 entity_type := e.entity_type }]) tbl

/-- `Repository.save_decision`: replace the decision row, delete the
decision's entity associations, then reinsert them. -/
def saveDecision (s : DbState) (d : DbDecision) : DbState :=
  { decisions := s.decisions.filter (fun r => r.id != d.id) ++ [toDecisionRow d],
    decision_entities :=
      insertEntityRows d.id d.entities
        (s.decision_entities.filter (fun r => r.decision_id != d.id)) }

/-! ### Concrete inputs used by witnesses and counterexamples -/

/-- Decoding of the response text
`"decisions": [ "entities": [ an empty object ] ]` — syntactically valid
JSON whose single entity object lacks a `"name"` field. -/
def badEntityResponse : Json :=
  .obj [("decisions", .arr [.obj [("entities", .arr [.obj []])]])]

/-- Decoding of a well-shaped decision response. -/
def wfDecisionsResponse : Json :=
  .obj [("decisions", .arr [.obj
    [("summary", .str "Chose Redis for caching"),
     ("entities", .arr [.obj [("name", .str "redis")]])]])]

/-- Decoding of a well-shaped learning response (the second record's
category is outside the closed set and is dropped). -/
def wfLearningsResponse : Json :=
  .obj [("learnings", .arr
    [.obj [("category", .str "gotcha"), ("summary", .str "watch the cache")],
     .obj [("category", .str "refactor")]])]

/-- Decoding of a response whose single decision item is an empty object:
every field falls back to its default, including the empty summary. -/
def emptyItemResponse : Json := .obj [("decisions", .arr [.obj []])]

/-- A PR item used by concrete runs. -/
def examplePR : PRData :=
  { number := 7, title := "Add caching", body := "", url := "", merged_at := "2024-01-01",
    review_comments := [], commit_messages := [] }

/-- Completion outcomes: always the `emptyItemResponse`. -/
def emptyItemAttempts : Nat → CallOutcome :=
  fun _ => .success [some emptyItemResponse]

/-- Completion outcomes: rate-limited twice, then a successful empty
decisions array. -/
def twoRateLimitsThenOk : Nat → CallOutcome :=
  fun n => if n < 2 then .rateLimited else .success [some (.obj [("decisions", .arr [])])]

/-- Completion outcomes: rate-limited twice, then a successful empty
learnings array. -/
def twoRateLimitsThenOkL : Nat → CallOutcome :=
  fun n => if n < 2 then .rateLimited else .success [some (.obj [("learnings", .arr [])])]

/-- Completion outcomes: always rate-limited. -/
def alwaysRateLimited : Nat → CallOutcome := fun _ => .rateLimited

/-- Session metadata for concrete runs. -/
def exampleMeta : SessionMeta :=
  { session_id := some "abc123", agent := some "claude-code", branch := none,
    prompt := none, summary := none, files_touched := [] }

/-- A decision tagged with the all-lowercase entity name `"redis"`. -/
def lowerRedisRow : Row := { id := "r2", extracted_at := 5, entities := ["redis"] }

/-- A store of 11 untagged decisions with distinct ids and timestamps. -/
def elevenRows : List Row :=
  (List.range 11).map (fun i =>
    { id := "d" ++ toString i, extracted_at := i, entities := [] })

/-- An FTS collaborator that matches nothing. -/
def noFts : String → Nat → List Row := fun _ _ => []

/-- A decision matched by full-text search but carrying no entity tag. -/
def ftsOnlyRow : Row := { id := "a", extracted_at := 2, entities := [] }

/-- A decision tagged with the case-preserved entity name `"Redis"`,
whose text fields contain neither query token (so FTS does not return
it). -/
def redisTaggedRow : Row := { id := "r", extracted_at := 1, entities := ["Redis"] }

/-- The FTS collaborator for that store: the query `"redis OR caching"`
matches only `ftsOnlyRow`. -/
def redisFts : String → Nat → List Row := fun _ _ => [ftsOnlyRow]

/-- A store holding one decision, used to reach the validator model call. -/
def oneRow : Row := { id := "x", extracted_at := 0, entities := [] }

/-- A completion collaborator answering with a verdict outside the
three-value set. -/
def maybeVerdictLlm : Nat → CallOutcome :=
  fun _ => .success [some (.obj [("verdict", .str "MAYBE")])]

/-- The decision record of the C9 end-to-end scenario. -/
def c9ADR : ADRData :=
  { path := "docs/adr/001.md", url := "", content := "## Decision\nUse PostgreSQL." }

/-- A stored decision value tagged `Redis`. -/
def exampleDbD1 : DbDecision :=
  { id := "dec-1", source_id := "adr:a.md", summary := "Use Redis", reasoning := "",
    alternatives := [], entities := [⟨"Redis", "technology"⟩],
    confidence := "high", decision_date := "" }

/-- A re-extraction of the same decision id with different fields and a
different (internally duplicated) entity set. -/
def exampleDbD2 : DbDecision :=
  { id := "dec-1", source_id := "adr:a.md", summary := "Use PostgreSQL",
    reasoning := "stronger guarantees",
    alternatives := ["Redis"],
    entities := [⟨"postgres", "technology"⟩, ⟨"postgres", "pattern"⟩],
    confidence := "high", decision_date := "" }

-- An acceptable entity object is parsed without raising.
theorem parseEntity_ok_of_wf {e : Json} (h : entityJsonOk e = true) :
    ∃ x, parseEntity e = .ok x := by
  cases e <;> simp [entityJsonOk] at h
  case obj fields =>
    rcases Option.isSome_iff_exists.mp h with ⟨v, hv⟩
    refine ⟨⟨v, (jlookup fields "entity_type").getD (.str "technology")⟩, ?_⟩
    simp [parseEntity, pySubscript, pyDictGet, hv, Bind.bind, Except.bind,
          pure, Except.pure]

-- If every element maps to `ok`, the whole traversal is `ok`.
theorem mapExcept_ok {α β : Type} {f : α → Except PyErr β} :
    ∀ (xs : List α), (∀ x ∈ xs, ∃ y, f x = .ok y) →
      ∃ ys, mapExcept f xs = .ok ys
  | [], _ => ⟨[], rfl⟩
  | x :: xs, h => by
    rcases h x (List.mem_cons_self x xs) with ⟨y, hy⟩
    rcases mapExcept_ok xs (fun a ha => h a (List.mem_cons_of_mem x ha)) with
      ⟨ys, hys⟩
    exact ⟨y :: ys, by simp [mapExcept, hy, hys, Bind.bind, Except.bind,
                             pure, Except.pure]⟩

-- An acceptable `"entities"` field yields an `ok` entity list.
theorem entitiesField_parse_ok {fields : List (String × Json)}
    (h : entitiesFieldOk fields = true) :
    ∃ ents, (do
      let ej ← pyDictGet (.obj fields) "entities" (.arr [])
      let elist ← pyIter ej
      mapExcept parseEntity elist) = Except.ok ents := by
  rcases hjl : jlookup fields "entities" with _ | ev
  · exact ⟨[], by simp [pyDictGet, hjl, pyIter, mapExcept, Bind.bind,
                        Except.bind, pure, Except.pure]⟩
  · simp only [entitiesFieldOk, hjl] at h
    cases ev <;> simp at h
    case arr es =>
      rcases mapExcept_ok es (fun e he => parseEntity_ok_of_wf (h e he)) with
        ⟨ents, hents⟩
      exact ⟨ents, by simp [pyDictGet, hjl, pyIter, hents, Bind.bind,
                            Except.bind, pure, Except.pure]⟩

-- An acceptable decision item is parsed without raising.
theorem parseDecisionItem_ok_of_wf (sid dd : String) {item : Json}
    (h : decisionItemOk item = true) :
    ∃ d, parseDecisionItem sid dd item = .ok d := by
  cases item <;> simp [decisionItemOk] at h
  case obj fields =>
    rcases entitiesField_parse_ok h with ⟨ents, hents⟩
    refine ⟨{ source_id := sid,
              summary := (jlookup fields "summary").getD (.str ""),
              reasoning := (jlookup fields "reasoning").getD (.str ""),
              alternatives := (jlookup fields "alternatives").getD (.arr []),
              entities := ents,
              confidence := (jlookup fields "confidence").getD (.str "medium"),
              decision_date := dd }, ?_⟩
    have hsplit :
        parseDecisionItem sid dd (.obj fields) = (do
          let ents ← (do
            let ej ← pyDictGet (.obj fields) "entities" (.arr [])
            let elist ← pyIter ej
            mapExcept parseEntity elist)
          let summary ← pyDictGet (.obj fields) "summary" (.str "")
          let reasoning ← pyDictGet (.obj fields) "reasoning" (.str "")
          let alts ← pyDictGet (.obj fields) "alternatives" (.arr [])
          let conf ← pyDictGet (.obj fields) "confidence" (.str "medium")
          pure { source_id := sid, summary := summary, reasoning := reasoning,
                 alternatives := alts, entities := ents, confidence := conf,
                 decision_date := dd }) := by
      simp [parseDecisionItem, Bind.bind, Except.bind]
      cases pyDictGet (.obj fields) "entities" (.arr []) <;> simp
      case ok ej => cases pyIter ej <;> simp
    rw [hsplit, hents]
    simp [pyDictGet, Bind.bind, Except.bind, pure, Except.pure]

-- An acceptable learning item yields `ok` (possibly skipped).
theorem parseLearningItem_ok_of_wf (sid : String) {item : Json}
    (h : learningItemOk item = true) :
    ∃ r, parseLearningItem sid item = .ok r := by
  cases item <;> simp [learningItemOk] at h
  case obj fields =>
    by_cases hvc :
        validCategory ((jlookup fields "category").getD (.str "")) = true
    · have hef : entitiesFieldOk fields = true := by
        rcases h with hinv | hef
        · rw [hvc] at hinv; cases hinv
        · exact hef
      rcases entitiesField_parse_ok hef with ⟨ents, hents⟩
      refine ⟨some
        { source_id := sid,
          category := (jlookup fields "category").getD (.str ""),
          summary := (jlookup fields "summary").getD (.str ""),
          detail := (jlookup fields "detail").getD (.str ""),
          components := (jlookup fields "components").getD (.arr []),
          entities := ents }, ?_⟩
      have hsplit :
          parseLearningItem sid (.obj fields) = (do
            let ents ← (do
              let ej ← pyDictGet (.obj fields) "entities" (.arr [])
              let elist ← pyIter ej
              mapExcept parseEntity elist)
            let summary ← pyDictGet (.obj fields) "summary" (.str "")
            let detail ← pyDictGet (.obj fields) "detail" (.str "")
            let comps ← pyDictGet (.obj fields) "components" (.arr [])
            pure (some { source_id := sid,
                         category := (jlookup fields "category").getD (.str ""),
                         summary := summary, detail := detail,
                         components := comps, entities := ents })) := by
        simp [parseLearningItem, pyDictGet, hvc, Bind.bind, Except.bind]
        cases pyIter ((jlookup fields "entities").getD (.arr [])) <;> simp
      rw [hsplit, hents]
      simp [pyDictGet, Bind.bind, Except.bind, pure, Except.pure]
    · have hvc' :
          validCategory ((jlookup fields "category").getD (.str "")) = false := by
        revert hvc; cases validCategory ((jlookup fields "category").getD (.str "")) <;> simp
      refine ⟨none, ?_⟩
      simp [parseLearningItem, pyDictGet, hvc', Bind.bind, Except.bind,
            pure, Except.pure]

-- A well-shaped decision response body parses without raising.
theorem parseDecisionsJson_ok_of_wf {j : Json} (sid dd : String)
    (h : decisionsPayloadOk j = true) :
    ∃ ds, parseDecisionsJson (some j) sid dd = .ok ds := by
  cases j <;> simp [decisionsPayloadOk] at h
  case obj fields =>
    rcases hjl : jlookup fields "decisions" with _ | dv
    · exact ⟨[], by simp [parseDecisionsJson, pyDictGet, hjl, pyIter,
                          mapExcept, Bind.bind, Except.bind, pure, Except.pure]⟩
    · simp only [hjl] at h
      cases dv <;> simp at h
      case arr items =>
        rcases mapExcept_ok items (fun it hit =>
            parseDecisionItem_ok_of_wf sid dd (h it hit)) with
          ⟨ds, hds⟩
        exact ⟨ds, by simp [parseDecisionsJson, pyDictGet, hjl, pyIter, hds,
                            Bind.bind, Except.bind, pure, Except.pure]⟩

-- A well-shaped learning response body parses without raising.
theorem parseLearningsJson_ok_of_wf {j : Json} (sid : String)
    (h : learningsPayloadOk j = true) :
    ∃ ls, parseLearningsJson (some j) sid = .ok ls := by
  cases j <;> simp [learningsPayloadOk] at h
  case obj fields =>
    rcases hjl : jlookup fields "learnings" with _ | lv
    · exact ⟨[], by simp [parseLearningsJson, pyDictGet, hjl, pyIter,
                          mapExcept, Bind.bind, Except.bind, pure, Except.pure]⟩
    · simp only [hjl] at h
      cases lv <;> simp at h
      case arr items =>
        rcases mapExcept_ok items (fun it hit =>
            parseLearningItem_ok_of_wf sid (h it hit)) with
          ⟨ls, hls⟩
        exact ⟨ls.filterMap id, by
          simp [parseLearningsJson, pyDictGet, hjl, pyIter, hls,
                Bind.bind, Except.bind, pure, Except.pure]⟩

/-! ### Claim C1 -/

/-- **C1** (counterexample).  The claim says the extraction response
parser returns a record list without raising for *every* completion text,
including valid JSON of unexpected shape such as an entity object without
a name field.  It is false: for the response text decoding to
`badEntityResponse` (a decisions array with one item whose entity object
is empty), `_parse_response` evaluates `e["name"]` and a `KeyError`
escapes. -/
theorem c1_counterexample :
    parseDecisionsJson (some badEntityResponse) "pr:1" "2024-01-01" =
      .error .keyError := rfl

/-- **C1** (amended).  The parser yields zero records without raising for
any text that is not valid JSON, and parses without raising any decoded
response of the documented shape — a JSON object whose
`decisions`/`learnings` field, when present, is an array of objects whose
`entities` fields, when present, are arrays of objects each carrying a
`name` — with missing optional fields defaulted; but syntactically valid
JSON outside that shape (e.g. an entity object without a `name` field)
raises. -/
theorem c1_amended :
    (∀ sid dd, parseDecisionsJson none sid dd = .ok []) ∧
    (∀ j sid dd, decisionsPayloadOk j = true →
      ∃ ds, parseDecisionsJson (some j) sid dd = .ok ds) ∧
    (∀ sid, parseLearningsJson none sid = .ok []) ∧
    (∀ j sid, learningsPayloadOk j = true →
      ∃ ls, parseLearningsJson (some j) sid = .ok ls) :=
  ⟨fun _ _ => rfl,
   fun _ sid dd h => parseDecisionsJson_ok_of_wf sid dd h,
   fun _ => rfl,
   fun _ sid h => parseLearningsJson_ok_of_wf sid h⟩

/-- **C1** (witness): the amended theorem applied to concrete well-shaped
decision and learning responses. -/
theorem c1_amended_witness :
    (decisionsPayloadOk wfDecisionsResponse = true ∧
      ∃ ds, parseDecisionsJson (some wfDecisionsResponse) "pr:7" "2024-01-01" = .ok ds) ∧
    (learningsPayloadOk wfLearningsResponse = true ∧
      ∃ ls, parseLearningsJson (some wfLearningsResponse) "learning:abc" = .ok ls) :=
  ⟨⟨rfl, c1_amended.2.1 wfDecisionsResponse "pr:7" "2024-01-01" rfl⟩,
   ⟨rfl, c1_amended.2.2.2 wfLearningsResponse "learning:abc" rfl⟩⟩

/-! ### Claim C2 -/

-- Every element of a successful traversal comes from a successful call.
theorem mapExcept_mem {α β : Type} {f : α → Except PyErr β} :
    ∀ (xs : List α) (ys : List β), mapExcept f xs = .ok ys →
      ∀ y ∈ ys, ∃ x ∈ xs, f x = .ok y
  | [], ys, h => by
    simp only [mapExcept] at h
    injection h with h
    subst h
    intro y hy
    cases hy
  | x :: xs, ys, h => by
    simp only [mapExcept, Bind.bind, Except.bind, pure, Except.pure] at h
    cases hfx : f x with
    | error e => rw [hfx] at h; cases h
    | ok y0 =>
      rw [hfx] at h
      cases hm : mapExcept f xs with
      | error e => rw [hm] at h; cases h
      | ok ys0 =>
        rw [hm] at h
        injection h with h
        subst h
        intro y hy
        rcases List.mem_cons.mp hy with rfl | hy2
        · exact ⟨x, List.mem_cons_self x xs, hfx⟩
        · rcases mapExcept_mem xs ys0 hm y hy2 with ⟨x', hx', hfx'⟩
          exact ⟨x', List.mem_cons_of_mem x hx', hfx'⟩

-- A successfully parsed decision item carries the supplied source id.
theorem parseDecisionItem_source_id {sid dd : String} {item : Json} {d : Decision}
    (h : parseDecisionItem sid dd item = .ok d) : d.source_id = sid := by
  simp only [parseDecisionItem, Bind.bind, Except.bind, pure, Except.pure] at h
  repeat' split at h
  all_goals try cases h
  all_goals rfl

-- All decisions out of the response parser carry the supplied source id.
theorem parseDecisionsJson_source_id {loaded : Option Json} {sid dd : String}
    {ds : List Decision} (h : parseDecisionsJson loaded sid dd = .ok ds) :
    ∀ d ∈ ds, d.source_id = sid := by
  cases loaded with
  | none =>
    simp only [parseDecisionsJson] at h
    injection h with h
    subst h
    intro d hd; cases hd
  | some data =>
    simp only [parseDecisionsJson, Bind.bind, Except.bind] at h
    repeat' split at h
    all_goals try cases h
    intro d hd
    rcases mapExcept_mem _ ds h d hd with ⟨item, _, hitem⟩
    exact parseDecisionItem_source_id hitem

-- Lifted through the content-block handling.
theorem parseResponseContent_source_id {content : List (Option Json)}
    {sid dd : String} {ds : List Decision}
    (h : parseResponseContent content sid dd = .ok ds) :
    ∀ d ∈ ds, d.source_id = sid := by
  cases content with
  | nil =>
    simp only [parseResponseContent] at h
    injection h with h
    subst h
    intro d hd; cases hd
  | cons j rest => exact parseDecisionsJson_source_id h

-- The head surviving `dropWhile` fails the predicate.
theorem dropWhile_head_false {p : Char → Bool} :
    ∀ {xs : List Char} {c : Char} {rest : List Char},
      xs.dropWhile p = c :: rest → p c = false := by
  intro xs
  induction xs with
  | nil => intro c rest h; cases h
  | cons x xs ih =>
    intro c rest h
    rw [List.dropWhile_cons] at h
    by_cases hp : p x = true
    · rw [if_pos hp] at h; exact ih h
    · rw [if_neg hp] at h
      injection h with h1 _
      subst h1
      exact Bool.eq_false_iff.mpr hp

-- A stripped list is a prefix of the left-trimmed list.
theorem stripChars_prefix_dropWhile (xs : List Char) :
    stripChars xs <+: xs.dropWhile pySpace := by
  unfold stripChars
  have h : List.dropWhile pySpace (xs.dropWhile pySpace).reverse <:+
      (xs.dropWhile pySpace).reverse := List.dropWhile_suffix pySpace
  have h2 := List.reverse_prefix.mpr h
  rwa [List.reverse_reverse] at h2

-- A non-empty stripped list starts with a non-space character.
theorem stripChars_head_false {xs : List Char} {c : Char} {rest : List Char}
    (h : stripChars xs = c :: rest) : pySpace c = false := by
  rcases stripChars_prefix_dropWhile xs with ⟨t, ht⟩
  rw [h, List.cons_append] at ht
  exact dropWhile_head_false ht.symm

-- Stripping empties a list exactly when it is all whitespace.
theorem stripChars_eq_nil_iff {xs : List Char} :
    stripChars xs = [] ↔ ∀ c ∈ xs, pySpace c = true := by
  unfold stripChars
  rw [List.reverse_eq_nil_iff, List.dropWhile_eq_nil_iff]
  constructor
  · intro h c hc
    rw [← List.takeWhile_append_dropWhile pySpace xs] at hc
    rcases List.mem_append.mp hc with h1 | h2
    · exact List.mem_takeWhile_imp h1
    · exact h c (List.mem_reverse.mpr h2)
  · intro h c hc
    exact h c ((List.dropWhile_suffix pySpace).subset (List.mem_reverse.mp hc))

-- Non-emptiness of a string in terms of its character list.
theorem str_ne_empty_iff (s : String) : s ≠ "" ↔ s.data ≠ [] := by
  constructor
  · intro h hc
    apply h
    cases s with
    | mk data =>
      have hdl : data = [] := hc
      rw [hdl]
  · intro h hc
    apply h
    rw [hc]

-- String append acts as list append on the character lists.
theorem str_data_append (a b : String) : (a ++ b).data = a.data ++ b.data := by
  cases a; cases b; rfl

-- `keepFirst` only drops entries.
theorem keepFirst_mem : ∀ (l : List (String × String)) (seen : List String)
    {pair : String × String}, pair ∈ keepFirst l seen → pair ∈ l
  | [], _, _, h => absurd h (List.not_mem_nil _)
  | (k, v) :: rest, seen, pair, h => by
    unfold keepFirst at h
    by_cases hk : k ∈ seen
    · rw [if_pos hk] at h
      exact List.mem_cons_of_mem _ (keepFirst_mem rest seen h)
    · rw [if_neg hk] at h
      rcases List.mem_cons.mp h with rfl | h2
      · exact List.mem_cons_self _ _
      · exact List.mem_cons_of_mem _ (keepFirst_mem rest (k :: seen) h2)

-- Every slice value is a stripped string.
theorem sectionSlices_val : ∀ (lines : List String) (hs : List (Nat × String))
    {pair : String × String}, pair ∈ sectionSlices lines hs →
      ∃ w, pair.2 = pyStrip w
  | _, [], _, h => absurd h (List.not_mem_nil _)
  | lines, (i, name) :: rest, pair, h => by
    unfold sectionSlices at h
    rcases List.mem_cons.mp h with rfl | h2
    · exact ⟨_, rfl⟩
    · exact sectionSlices_val lines rest h2

-- Successful assoc lookups come from list membership.
theorem slookup_mem : ∀ {l : List (String × String)} {key v : String},
    slookup l key = some v → (key, v) ∈ l := by
  intro l
  induction l with
  | nil => intro key v h; cases h
  | cons p rest ih =>
    intro key v h
    rcases p with ⟨k, w⟩
    unfold slookup at h
    by_cases hk : k = key
    · rw [if_pos hk] at h
      injection h with h
      subst h; subst hk
      exact List.mem_cons_self _ _
    · rw [if_neg hk] at h
      exact List.mem_cons_of_mem _ (ih h)

-- Every stored section value is a stripped string.
theorem adrParseSections_val_stripped {content : String} {key v : String}
    (h : slookup (adrParseSections content) key = some v) :
    ∃ w, v = pyStrip w := by
  have hmem := slookup_mem h
  have hmem2 := keepFirst_mem _ _ hmem
  exact sectionSlices_val _ _ hmem2

-- The first paragraph of a list with a non-newline head keeps that head.
theorem splitDoubleNl_cons_head {c : Char} (hc : ¬c = '\n') :
    ∀ rest : List Char, ∃ ys, (splitDoubleNl (c :: rest)).headD [] = c :: ys
  | [] => ⟨[], rfl⟩
  | c2 :: rest2 => by
    unfold splitDoubleNl
    rw [if_neg (by rintro ⟨h1, _⟩; exact hc h1)]
    cases splitDoubleNl (c2 :: rest2) with
    | nil => exact ⟨[], rfl⟩
    | cons y ys => exact ⟨y, rfl⟩

-- The built summary is non-empty when the decision section is a
-- non-empty stripped string or the fallback title is non-empty.
theorem adrBuildSummary_ne_empty {secs : List (String × String)} {title : String}
    (hstrip : ∀ v, slookup secs "decision" = some v → ∃ w, v = pyStrip w)
    (h : getSec secs "decision" ≠ "" ∨
      (getSec secs "decision" = "" ∧ title ≠ "")) :
    adrBuildSummary secs title ≠ "" := by
  simp only [adrBuildSummary]
  rcases h with hd | ⟨hd, ht⟩
  · rw [if_pos hd]
    have hv : ∃ w, getSec secs "decision" = pyStrip w := by
      unfold getSec at hd ⊢
      cases hsl : slookup secs "decision" with
      | none => rw [hsl] at hd; simp at hd
      | some v => simpa using hstrip v hsl
    rcases hv with ⟨w, hw⟩
    have hdata : (getSec secs "decision").data = stripChars w.data := by
      rw [hw]; rfl
    rcases hcr : (getSec secs "decision").data with _ | ⟨c, rest⟩
    · rw [str_ne_empty_iff] at hd
      exact absurd hcr hd
    · have hcs : pySpace c = false := stripChars_head_false (hdata.symm.trans hcr)
      have hcn : ¬c = '\n' := by
        intro hcc; rw [hcc] at hcs; simp [pySpace] at hcs
      rcases splitDoubleNl_cons_head hcn rest with ⟨ys, hys⟩
      rw [hys]
      by_cases hlen : (pyStrip ⟨c :: ys⟩).data.length ≤ 300
      · rw [if_pos hlen, str_ne_empty_iff]
        show stripChars (c :: ys) ≠ []
        intro hnil
        have hsp := stripChars_eq_nil_iff.mp hnil c (List.mem_cons_self c ys)
        rw [hcs] at hsp; cases hsp
      · rw [if_neg hlen, str_ne_empty_iff]
        intro hnil
        rw [str_data_append] at hnil
        rcases List.append_eq_nil.mp hnil with ⟨_, h4⟩
        cases h4
  · rw [if_neg (not_not_intro hd)]
    exact ht

/-- **C2** (counterexample).  The claim says every extracted decision has
a non-empty summary (and the matching source id).  It fails: a completion
whose decoded body is `emptyItemResponse` (one decision item that is an
empty object) makes the PR pipeline emit a decision whose summary is the
default empty string. -/
theorem c2_counterexample :
    (extractPrDecisions emptyItemAttempts examplePR "o/r").1.toOption.map
        (fun r => r.2.map (fun d => (d.source_id, d.summary))) =
      some [("pr:7", Json.str "")] := rfl

/-- **C2** (amended).  Every decision returned by the PR pipeline carries
the id of the Source returned alongside it, and so does the ADR
extractor; the ADR decision's summary is non-empty whenever the parsed
decision section is non-empty or the extracted title is non-empty, but
LLM-parsed decisions (PR, doc, session) default a missing summary field
to the empty string. -/
theorem c2_amended :
    (∀ (attempts : Nat → CallOutcome) (pr : PRData) (repo : String)
        (src : Source) (ds : List Decision) (n : Nat),
      extractPrDecisions attempts pr repo = (.ok (src, ds), n) →
      ∀ d ∈ ds, d.source_id = src.id) ∧
    (∀ (adr : ADRData) (repo : String), ∀ d ∈ (extractAdrDecisions adr repo).2,
      d.source_id = (extractAdrDecisions adr repo).1.id) ∧
    (∀ (adr : ADRData) (repo : String),
      (adrExtractTitle adr.content ≠ "" ∨
        getSec (adrParseSections adr.content) "decision" ≠ "") →
      ∀ d ∈ (extractAdrDecisions adr repo).2, d.summary ≠ .str "") := by
  refine ⟨?_, ?_, ?_⟩
  · intro attempts pr repo src ds n h
    unfold extractPrDecisions at h
    cases hr : retryLoop attempts with
    | mk out m =>
      rw [hr] at h
      cases out with
      | answered content =>
        simp only at h
        cases hp : parseResponseContent content (buildPrSource pr repo).id
            pr.merged_at with
        | error e => rw [hp] at h; simp [Except.map] at h
        | ok l =>
          rw [hp] at h
          simp only [Except.map, Prod.mk.injEq] at h
          obtain ⟨h1, _⟩ := h
          injection h1 with h1
          injection h1 with hsrc hds
          subst hsrc; subst hds
          exact parseResponseContent_source_id hp
      | rateLimitedOut =>
        simp only [Prod.mk.injEq] at h
        obtain ⟨h1, _⟩ := h
        injection h1 with h1
        injection h1 with hsrc hds
        subst hsrc; subst hds
        intro d hd; cases hd
      | apiErrorOut msg =>
        simp only [Prod.mk.injEq] at h
        obtain ⟨h1, _⟩ := h
        injection h1 with h1
        injection h1 with hsrc hds
        subst hsrc; subst hds
        intro d hd; cases hd
  · intro adr repo d hd
    by_cases hg : getSec (adrParseSections adr.content) "decision" = "" ∧
        getSec (adrParseSections adr.content) "context" = ""
    · simp only [extractAdrDecisions, if_pos hg] at hd
      cases hd
    · simp only [extractAdrDecisions, if_neg hg] at hd ⊢
      rcases List.mem_singleton.mp hd with rfl
      rfl
  · intro adr repo hor d hd
    by_cases hg : getSec (adrParseSections adr.content) "decision" = "" ∧
        getSec (adrParseSections adr.content) "context" = ""
    · simp only [extractAdrDecisions, if_pos hg] at hd
      cases hd
    · simp only [extractAdrDecisions, if_neg hg] at hd
      rcases List.mem_singleton.mp hd with rfl
      show Json.str (adrBuildSummary (adrParseSections adr.content)
        (adrExtractTitle adr.content)) ≠ .str ""
      intro hsum
      injection hsum with hsum
      exact adrBuildSummary_ne_empty
        (fun v hv => adrParseSections_val_stripped hv)
        (by
          by_cases hdz : getSec (adrParseSections adr.content) "decision" = ""
          · refine Or.inr ⟨hdz, ?_⟩
            rcases hor with ht | hdd
            · exact ht
            · exact absurd hdz hdd
          · exact Or.inl hdz) hsum

/-- **C2** (witness): the amended theorem's pipeline clause applied to a
concrete run in which the model omitted the summary field. -/
theorem c2_amended_witness :
    (⟨"pr:7", .str "", .str "", .arr [], [], .str "medium",
      "2024-01-01"⟩ : Decision).source_id = (buildPrSource examplePR "o/r").id :=
  c2_amended.1 emptyItemAttempts examplePR "o/r" (buildPrSource examplePR "o/r")
    [⟨"pr:7", .str "", .str "", .arr [], [], .str "medium", "2024-01-01"⟩] 1 rfl
    _ (List.mem_singleton.mpr rfl)

/-! ### Claim C3 -/

-- Folding unions of empty result sets changes nothing.
theorem foldl_addRows_empty (f : String → List Row) :
    ∀ (es : List String) (acc : List String × List Row),
      (∀ e ∈ es, f e = []) →
      es.foldl (fun a e => addRows a (f e)) acc = acc
  | [], _, _ => rfl
  | e :: es, acc, h => by
    rw [List.foldl_cons, h e (List.mem_cons_self e es)]
    exact foldl_addRows_empty f es acc (fun a ha => h a (List.mem_cons_of_mem e ha))

/-- **C3** (counterexample).  The claim says that when both search
strategies come up empty, question-mode retrieval falls back to the most
recent decisions up to the question cap of 15, so a store holding 11
decisions returns all 11.  It is false: the fallback call is
`get_all_decisions(limit=10)`, so only 10 of the 11 stored decisions come
back. -/
theorem c3_counterexample :
    elevenRows.length = 11 ∧
    (engineFindRelevant (storeOps elevenRows noFts) "postgres migration").length = 10 :=
  ⟨rfl, by rfl⟩

/-- **C3** (amended).  When the full-text strategy is skipped or empty
and every entity hit is empty, question-mode retrieval returns the
most-recently-extracted decisions up to the fallback limit of 10 (the
final cap of 15 then never binds). -/
theorem c3_amended (ops : StoreOps) (q : String)
    (hf : engineBuildFtsQuery q = "" ∨
      ops.search_decisions (engineBuildFtsQuery q) 10 = [])
    (he : ∀ e ∈ engineExtractQueryEntities ops.get_entities q,
      ops.get_decisions_by_entity e = []) :
    engineFindRelevant ops q = (ops.get_all_decisions 10).take 15 := by
  simp only [engineFindRelevant, engineCandidates]
  have hacc1 : (if engineBuildFtsQuery q ≠ "" then
        addRows ([], []) (ops.search_decisions (engineBuildFtsQuery q) 10)
      else (([], []) : List String × List Row)) = ([], []) := by
    rcases hf with h | h
    · rw [if_neg (by simp [h])]
    · by_cases hq : engineBuildFtsQuery q ≠ ""
      · rw [if_pos hq, h]
        rfl
      · rw [if_neg hq]
  rw [hacc1, foldl_addRows_empty ops.get_decisions_by_entity _ _ he]
  rw [if_pos rfl]

/-- **C3** (witness): the amended theorem applied to the 11-decision
store with an FTS engine matching nothing. -/
theorem c3_amended_witness :
    engineFindRelevant (storeOps elevenRows noFts) "postgres migration" =
      ((storeOps elevenRows noFts).get_all_decisions 10).take 15 :=
  c3_amended (storeOps elevenRows noFts) "postgres migration" (Or.inr rfl)
    (fun e he => by
      rw [show engineExtractQueryEntities (storeOps elevenRows noFts).get_entities
          "postgres migration" = [] from rfl] at he
      cases he)

/-! ### Claim C4 -/

-- The union loop only appends result rows.
theorem addRows_mono : ∀ (rows : List Row) (acc : List String × List Row) {r : Row},
    r ∈ acc.2 → r ∈ (addRows acc rows).2
  | [], _, _, h => h
  | x :: rows, (seen, results), r, h => by
    unfold addRows
    by_cases hx : x.id ∈ seen
    · rw [if_pos hx]
      exact addRows_mono rows (seen, results) h
    · rw [if_neg hx]
      exact addRows_mono rows (x.id :: seen, results ++ [x]) (List.mem_append_left _ h)

-- Appending one unseen row preserves the seen-set/result-id
-- correspondence.
theorem addRows_inv_step {x : Row} {seen : List String} {results : List Row}
    (h : ∀ i, i ∈ seen ↔ ∃ r ∈ results, r.id = i) :
    ∀ i, i ∈ x.id :: seen ↔ ∃ r ∈ results ++ [x], r.id = i := by
  intro i
  constructor
  · intro hi
    rcases List.mem_cons.mp hi with rfl | hi2
    · exact ⟨x, List.mem_append_right _ (List.mem_singleton.mpr rfl), rfl⟩
    · rcases (h i).mp hi2 with ⟨r, hr, hid⟩
      exact ⟨r, List.mem_append_left _ hr, hid⟩
  · rintro ⟨r, hr, hid⟩
    rcases List.mem_append.mp hr with hr1 | hr2
    · exact List.mem_cons_of_mem _ ((h i).mpr ⟨r, hr1, hid⟩)
    · rcases List.mem_singleton.mp hr2 with rfl
      subst hid
      exact List.mem_cons_self _ _

-- The union loop preserves that correspondence.
theorem addRows_inv : ∀ (rows : List Row) (acc : List String × List Row),
    (∀ i, i ∈ acc.1 ↔ ∃ r ∈ acc.2, r.id = i) →
    ∀ i, i ∈ (addRows acc rows).1 ↔ ∃ r ∈ (addRows acc rows).2, r.id = i
  | [], _, h => h
  | x :: rows, (seen, results), h => by
    unfold addRows
    by_cases hx : x.id ∈ seen
    · rw [if_pos hx]
      exact addRows_inv rows (seen, results) h
    · rw [if_neg hx]
      exact addRows_inv rows (x.id :: seen, results ++ [x]) (addRows_inv_step h)

-- Every row handed to the union loop ends up represented by its id.
theorem addRows_covers : ∀ (rows : List Row) (acc : List String × List Row),
    (∀ i, i ∈ acc.1 ↔ ∃ r ∈ acc.2, r.id = i) →
    ∀ r ∈ rows, ∃ rr ∈ (addRows acc rows).2, rr.id = r.id
  | [], _, _, r, hr => absurd hr (List.not_mem_nil r)
  | x :: rows, (seen, results), h, r, hr => by
    unfold addRows
    rcases List.mem_cons.mp hr with rfl | hr2
    · by_cases hx : r.id ∈ seen
      · rw [if_pos hx]
        rcases (h r.id).mp hx with ⟨r0, hr0, hid0⟩
        exact ⟨r0, addRows_mono rows _ hr0, hid0⟩
      · rw [if_neg hx]
        exact ⟨r, addRows_mono rows _
          (List.mem_append_right _ (List.mem_singleton.mpr rfl)), rfl⟩
    · by_cases hx : x.id ∈ seen
      · rw [if_pos hx]
        exact addRows_covers rows (seen, results) h r hr2
      · rw [if_neg hx]
        exact addRows_covers rows (x.id :: seen, results ++ [x])
          (addRows_inv_step h) r hr2

-- Lifting the three facts through the entity fold.
theorem foldl_addRows_mono (f : String → List Row) :
    ∀ (es : List String) (acc : List String × List Row) {r : Row},
      r ∈ acc.2 → r ∈ (es.foldl (fun a e => addRows a (f e)) acc).2
  | [], _, _, h => h
  | e :: es, acc, r, h => by
    rw [List.foldl_cons]
    exact foldl_addRows_mono f es _ (addRows_mono (f e) acc h)

theorem foldl_addRows_covers (f : String → List Row) :
    ∀ (es : List String) (acc : List String × List Row) (e : String),
      (∀ i, i ∈ acc.1 ↔ ∃ r ∈ acc.2, r.id = i) →
      e ∈ es → ∀ r ∈ f e,
        ∃ rr ∈ (es.foldl (fun a e => addRows a (f e)) acc).2, rr.id = r.id
  | [], _, _, _, he, _, _ => absurd he (List.not_mem_nil _)
  | e' :: es, acc, e, h, he, r, hr => by
    rw [List.foldl_cons]
    rcases List.mem_cons.mp he with rfl | he2
    · rcases addRows_covers (f e) acc h r hr with ⟨rr, hrr, hid⟩
      exact ⟨rr, foldl_addRows_mono f es _ hrr, hid⟩
    · exact foldl_addRows_covers f es _ e (addRows_inv (f e') acc h) he2 r hr

/-- **C4** (counterexample).  The claim says entity matching is
case-insensitive in the stored name: lowercased query containing the
lowercased stored name suffices.  It is false in question mode: the
stored name `"Redis"` is tested verbatim against the lowercased question,
never matches, and the decision tagged with it is left out even though
`redis` occurs in the query and FTS hits keep the fallback from
firing. -/
theorem c4_counterexample :
    pyInStr (pyLower "Redis") (pyLower "Why Redis caching?") = true ∧
    storeGetByEntity [ftsOnlyRow, redisTaggedRow] "Redis" = [redisTaggedRow] ∧
    engineFindRelevant (storeOps [ftsOnlyRow, redisTaggedRow] redisFts)
      "Why Redis caching?" = [ftsOnlyRow] :=
  ⟨rfl, rfl, by rfl⟩

/-- **C4** (amended).  The stored entity name is compared *as stored*
against the lowercased query: whenever the stored name itself occurs in
the lowercased query text (in particular whenever it is stored in
lowercase and occurs), all decisions returned for that entity are unioned
into the candidate set, deduplicated by id.  (The validator's variant
lowercases the stored name first; the question engine does not.) -/
theorem c4_amended (ops : StoreOps) (q e : String) (r : Row)
    (hk : e ∈ ops.get_entities) (hs : pyInStr e (pyLower q) = true)
    (hr : r ∈ ops.get_decisions_by_entity e) :
    ∃ rr ∈ engineCandidates ops q, rr.id = r.id := by
  have he : e ∈ engineExtractQueryEntities ops.get_entities q := by
    unfold engineExtractQueryEntities
    exact List.mem_filter.mpr ⟨hk, hs⟩
  simp only [engineCandidates]
  have hinv0 : ∀ i, i ∈ (([], []) : List String × List Row).1 ↔
      ∃ r0 ∈ (([], []) : List String × List Row).2, r0.id = i := by
    intro i
    simp
  have hinv1 : ∀ i, i ∈ (if engineBuildFtsQuery q ≠ "" then
        addRows ([], []) (ops.search_decisions (engineBuildFtsQuery q) 10)
      else (([], []) : List String × List Row)).1 ↔
      ∃ r0 ∈ (if engineBuildFtsQuery q ≠ "" then
        addRows ([], []) (ops.search_decisions (engineBuildFtsQuery q) 10)
      else (([], []) : List String × List Row)).2, r0.id = i := by
    by_cases hq : engineBuildFtsQuery q ≠ ""
    · rw [if_pos hq]
      exact addRows_inv _ _ hinv0
    · rw [if_neg hq]
      exact hinv0
  obtain ⟨rr, hrr, hid⟩ :=
    foldl_addRows_covers ops.get_decisions_by_entity
      (engineExtractQueryEntities ops.get_entities q)
      (if engineBuildFtsQuery q ≠ "" then
        addRows ([], []) (ops.search_decisions (engineBuildFtsQuery q) 10)
      else ([], [])) e hinv1 he r hr
  rw [if_neg (by
    intro hnil
    rw [hnil] at hrr
    cases hrr)]
  exact ⟨rr, hrr, hid⟩

/-- **C4** (witness): the amended theorem applied to a store whose only
decision is tagged with the lowercase name `"redis"`. -/
theorem c4_amended_witness :
    ∃ rr ∈ engineCandidates (storeOps [lowerRedisRow] noFts) "why redis",
      rr.id = lowerRedisRow.id :=
  c4_amended (storeOps [lowerRedisRow] noFts) "why redis" "redis" lowerRedisRow
    (by rw [show (storeOps [lowerRedisRow] noFts).get_entities = ["redis"] from rfl]
        exact List.mem_singleton.mpr rfl)
    rfl
    (by rw [show (storeOps [lowerRedisRow] noFts).get_decisions_by_entity "redis" =
          [lowerRedisRow] from rfl]
        exact List.mem_singleton.mpr rfl)

/-! ### Claim C5 -/

/-- **C5** (counterexample).  The claim says validation always produces a
verdict among CONFLICTS, ALIGNS, NO_COVERAGE, even when the parsed JSON
carries some other string.  It is false: with one stored decision and a
completion answering a body whose verdict field is `"MAYBE"`, `validate`
returns that string verbatim. -/
theorem c5_counterexample :
    ((validate (storeOps [oneRow] noFts) maybeVerdictLlm "Use MongoDB" "").1.toOption.map
      (fun r => r.verdict)) = some (.str "MAYBE") ∧
    ("MAYBE" ∉ (["CONFLICTS", "ALIGNS", "NO_COVERAGE"] : List String)) :=
  ⟨by rfl, by decide⟩

/-- **C5** (amended).  The parser yields verdict NO_COVERAGE when the
response is not valid JSON, and otherwise passes the parsed object's
verdict field through verbatim (defaulting to NO_COVERAGE only when the
field is absent) — so strings outside the three-value set survive. -/
theorem c5_amended :
    (∀ pa dc, validatorParseJson none pa dc = .ok
      { proposed_approach := pa, verdict := .str "NO_COVERAGE", conflicts := [],
        alignments := .arr [], warnings := .arr [],
        recommendation :=
          .str "Validation response was not parseable. Proceed with caution.",
        decisions_checked := dc }) ∧
    (∀ (fields : List (String × Json)) (pa : String) (dc : Nat)
        (r : ValidationResult),
      validatorParseJson (some (.obj fields)) pa dc = .ok r →
      r.verdict = (jlookup fields "verdict").getD (.str "NO_COVERAGE")) := by
  refine ⟨fun _ _ => rfl, ?_⟩
  intro fields pa dc r h
  simp only [validatorParseJson, Bind.bind, Except.bind, pure, Except.pure,
    pyDictGet] at h
  repeat' split at h
  all_goals try cases h
  all_goals rfl

/-- **C5** (witness): the amended theorem applied to a decoded body whose
verdict field holds `"MAYBE"`. -/
theorem c5_amended_witness :
    ({ proposed_approach := "Use MongoDB", verdict := .str "MAYBE",
       conflicts := [], alignments := .arr [], warnings := .arr [],
       recommendation := .str "", decisions_checked := 1 }
        : ValidationResult).verdict =
      (jlookup [("verdict", Json.str "MAYBE")] "verdict").getD
        (.str "NO_COVERAGE") :=
  c5_amended.2 [("verdict", .str "MAYBE")] "Use MongoDB" 1 _ rfl

/-! ### Claim C6 -/

/-- **C6**.  Two rate-limit signals followed by a success make the
pipeline issue exactly 3 completion calls and return the records parsed
from the successful response; three rate-limit signals make it return the
eagerly built Source with zero records (and no exception), again after
exactly 3 calls — for the PR pipeline and the session-learning
pipeline. -/
theorem c6_retry_policy :
    (∀ (attempts : Nat → CallOutcome) (pr : PRData) (repo : String)
        (m : List (Option Json)) (ds : List Decision),
      attempts 0 = .rateLimited → attempts 1 = .rateLimited →
      attempts 2 = .success m →
      parseResponseContent m (buildPrSource pr repo).id pr.merged_at = .ok ds →
      extractPrDecisions attempts pr repo = (.ok (buildPrSource pr repo, ds), 3)) ∧
    (∀ (attempts : Nat → CallOutcome) (pr : PRData) (repo : String),
      attempts 0 = .rateLimited → attempts 1 = .rateLimited →
      attempts 2 = .rateLimited →
      extractPrDecisions attempts pr repo = (.ok (buildPrSource pr repo, []), 3)) ∧
    (∀ (attempts : Nat → CallOutcome) (transcript repo : String)
        (meta : SessionMeta) (freshHex : String) (m : List (Option Json))
        (ls : List Learning),
      attempts 0 = .rateLimited → attempts 1 = .rateLimited →
      attempts 2 = .success m →
      parseLearningContent m (buildLearningSource meta transcript repo freshHex).id =
        .ok ls →
      extractSessionLearnings attempts transcript repo meta freshHex =
        (.ok (buildLearningSource meta transcript repo freshHex, ls), 3)) ∧
    (∀ (attempts : Nat → CallOutcome) (transcript repo : String)
        (meta : SessionMeta) (freshHex : String),
      attempts 0 = .rateLimited → attempts 1 = .rateLimited →
      attempts 2 = .rateLimited →
      extractSessionLearnings attempts transcript repo meta freshHex =
        (.ok (buildLearningSource meta transcript repo freshHex, []), 3)) := by
  have hloop : ∀ (attempts : Nat → CallOutcome) (m : List (Option Json)),
      attempts 0 = .rateLimited → attempts 1 = .rateLimited →
      attempts 2 = .success m → retryLoop attempts = (.answered m, 3) := by
    intro attempts m h0 h1 h2
    simp [retryLoop, MAX_RETRIES, retryLoopGo, h0, h1, h2]
  have hloop3 : ∀ (attempts : Nat → CallOutcome),
      attempts 0 = .rateLimited → attempts 1 = .rateLimited →
      attempts 2 = .rateLimited → retryLoop attempts = (.rateLimitedOut, 3) := by
    intro attempts h0 h1 h2
    simp [retryLoop, MAX_RETRIES, retryLoopGo, h0, h1, h2]
  refine ⟨?_, ?_, ?_, ?_⟩
  · intro attempts pr repo m ds h0 h1 h2 hp
    unfold extractPrDecisions
    rw [hloop attempts m h0 h1 h2]
    show ((parseResponseContent m (buildPrSource pr repo).id pr.merged_at).map
      (fun ds => (buildPrSource pr repo, ds)), 3) =
      (.ok (buildPrSource pr repo, ds), 3)
    rw [hp]
    rfl
  · intro attempts pr repo h0 h1 h2
    unfold extractPrDecisions
    rw [hloop3 attempts h0 h1 h2]
  · intro attempts transcript repo meta freshHex m ls h0 h1 h2 hp
    unfold extractSessionLearnings
    rw [hloop attempts m h0 h1 h2]
    show ((parseLearningContent m
        (buildLearningSource meta transcript repo freshHex).id).map
      (fun ls => (buildLearningSource meta transcript repo freshHex, ls)), 3) =
      (.ok (buildLearningSource meta transcript repo freshHex, ls), 3)
    rw [hp]
    rfl
  · intro attempts transcript repo meta freshHex h0 h1 h2
    unfold extractSessionLearnings
    rw [hloop3 attempts h0 h1 h2]

/-- **C6** (witness): the theorem applied to concrete collaborator
outcomes for both pipelines. -/
theorem c6_retry_policy_witness :
    (extractPrDecisions twoRateLimitsThenOk examplePR "o/r" =
      (.ok (buildPrSource examplePR "o/r", []), 3)) ∧
    (extractPrDecisions alwaysRateLimited examplePR "o/r" =
      (.ok (buildPrSource examplePR "o/r", []), 3)) ∧
    (extractSessionLearnings twoRateLimitsThenOkL "t" "o/r" exampleMeta "ffff" =
      (.ok (buildLearningSource exampleMeta "t" "o/r" "ffff", []), 3)) ∧
    (extractSessionLearnings alwaysRateLimited "t" "o/r" exampleMeta "ffff" =
      (.ok (buildLearningSource exampleMeta "t" "o/r" "ffff", []), 3)) :=
  ⟨c6_retry_policy.1 twoRateLimitsThenOk examplePR "o/r" _ [] rfl rfl rfl rfl,
   c6_retry_policy.2.1 alwaysRateLimited examplePR "o/r" rfl rfl rfl,
   c6_retry_policy.2.2.1 twoRateLimitsThenOkL "t" "o/r" exampleMeta "ffff" _ []
     rfl rfl rfl rfl,
   c6_retry_policy.2.2.2 alwaysRateLimited "t" "o/r" exampleMeta "ffff"
     rfl rfl rfl⟩

/-! ### Claim C7 -/

-- Rows inserted for a decision id are invisible to a filter excluding
-- that id.
theorem filter_insertEntityRows (did : String) :
    ∀ (es : List DbEntity) (tbl : List EntityRow),
      (insertEntityRows did es tbl).filter (fun r => r.decision_id != did) =
        tbl.filter (fun r => r.decision_id != did)
  | [], _ => rfl
  | e :: es, tbl => by
    unfold insertEntityRows
    rw [List.foldl_cons]
    by_cases hx : tbl.any
        (fun r => r.decision_id == did && r.entity == e.name) = true
    · rw [if_pos hx]
      exact filter_insertEntityRows did es tbl
    · rw [if_neg hx]
      have h2 := filter_insertEntityRows did es
        (tbl ++ [{ decision_id := did, entity := e.name,
                   entity_type := e.entity_type }])
      have h3 : ((tbl ++ [(⟨did, e.name, e.entity_type⟩ : EntityRow)]).filter
            (fun r => r.decision_id != did)) =
          tbl.filter (fun r => r.decision_id != did) := by
        rw [List.filter_append]
        simp
      exact h2.trans h3

/-- **C7**.  Saving decision `d1` and then `d2` under the same identifier
leaves the decisions table and the entity associations exactly as saving
only `d2`: replace-then-replace collapses, and the delete-then-reinsert
of entity rows leaves no trace of `d1`. -/
theorem c7_upsert_idempotent (s : DbState) (d1 d2 : DbDecision)
    (h : d1.id = d2.id) :
    saveDecision (saveDecision s d1) d2 = saveDecision s d2 := by
  unfold saveDecision
  rw [h]
  have hid : (toDecisionRow d1).id = d2.id := by
    rw [← h]
    rfl
  congr 1
  · rw [List.filter_append, List.filter_filter]
    simp [hid]
  · rw [filter_insertEntityRows d2.id d1.entities, List.filter_filter]
    simp

/-- **C7** (witness): the theorem applied to two concrete re-extractions
of the same decision id. -/
theorem c7_upsert_idempotent_witness :
    saveDecision (saveDecision ⟨[], []⟩ exampleDbD1) exampleDbD2 =
      saveDecision ⟨[], []⟩ exampleDbD2 :=
  c7_upsert_idempotent ⟨[], []⟩ exampleDbD1 exampleDbD2 rfl

/-! ### Claim C8 -/

/-- **C8**.  When retrieval yields zero candidate decisions, `validate`
returns verdict NO_COVERAGE with zero decisions checked and issues zero
completion calls. -/
theorem c8_no_candidates_no_call (ops : StoreOps) (llm : Nat → CallOutcome)
    (pa ctx : String) (h : validatorFindRelevant ops pa = []) :
    validate ops llm pa ctx =
      (.ok { proposed_approach := pa, verdict := .str "NO_COVERAGE",
             conflicts := [], alignments := .arr [], warnings := .arr [],
             recommendation := .str
               ("No engineering decisions exist for this area. " ++
                "Proceed with your best judgment, but consider documenting " ++
                "this choice as a new decision for the team."),
             decisions_checked := 0 }, 0) := by
  unfold validate
  rw [h]
  rfl

/-- **C8** (witness): the theorem applied to an empty store, whose
retrieval provably returns no candidates. -/
theorem c8_no_candidates_no_call_witness :
    validate (storeOps [] noFts) alwaysRateLimited "Use a new framework" "" =
      (.ok { proposed_approach := "Use a new framework",
             verdict := .str "NO_COVERAGE",
             conflicts := [], alignments := .arr [], warnings := .arr [],
             recommendation := .str
               ("No engineering decisions exist for this area. " ++
                "Proceed with your best judgment, but consider documenting " ++
                "this choice as a new decision for the team."),
             decisions_checked := 0 }, 0) :=
  c8_no_candidates_no_call (storeOps [] noFts) alwaysRateLimited
    "Use a new framework" "" rfl

/-! ### Claim C9 -/

/-- **C9**.  The decision record `## Decision\nUse PostgreSQL.` with no
other sections yields exactly one decision, summary `"Use PostgreSQL."`
and confidence `medium`; more generally the heuristic yields `medium`
when exactly one of the decision/context sections is present (non-empty)
and `high` when both are. -/
theorem c9_decision_record_scenario :
    ((extractAdrDecisions c9ADR "o/r").2.map (fun d => (d.summary, d.confidence)) =
      [(Json.str "Use PostgreSQL.", Json.str "medium")]) ∧
    (∀ secs : List (String × String),
      ((getSec secs "decision" ≠ "" ∧ getSec secs "context" = "") ∨
       (getSec secs "decision" = "" ∧ getSec secs "context" ≠ "")) →
      adrAssessConfidence secs = "medium") ∧
    (∀ secs : List (String × String),
      getSec secs "decision" ≠ "" → getSec secs "context" ≠ "" →
      adrAssessConfidence secs = "high") := by
  refine ⟨rfl, ?_, ?_⟩
  · intro secs h
    rcases h with ⟨h1, h2⟩ | ⟨h1, h2⟩ <;>
      simp [adrAssessConfidence, h1, h2]
  · intro secs h1 h2
    simp [adrAssessConfidence, h1, h2]

/-- **C9** (witness): the confidence clauses applied to concrete section
maps. -/
theorem c9_decision_record_scenario_witness :
    adrAssessConfidence [("decision", "Use PostgreSQL.")] = "medium" ∧
    adrAssessConfidence [("decision", "x"), ("context", "y")] = "high" :=
  ⟨c9_decision_record_scenario.2.1 [("decision", "Use PostgreSQL.")]
     (Or.inl ⟨by decide, by decide⟩),
   c9_decision_record_scenario.2.2 [("decision", "x"), ("context", "y")]
     (by decide) (by decide)⟩

/-! ### Claim C10 -/

/-- **C10**.  ADR extraction returns at most one decision, and exactly
one precisely when the parsed sections hold a non-empty `decision` or a
non-empty `context` entry; otherwise the Source is still returned with an
empty decision list. -/
theorem c10_adr_at_most_one (adr : ADRData) (repo : String) :
    (extractAdrDecisions adr repo).2.length ≤ 1 ∧
    ((extractAdrDecisions adr repo).2.length = 1 ↔
      (getSec (adrParseSections adr.content) "decision" ≠ "" ∨
       getSec (adrParseSections adr.content) "context" ≠ "")) := by
  by_cases hg : getSec (adrParseSections adr.content) "decision" = "" ∧
      getSec (adrParseSections adr.content) "context" = ""
  · simp only [extractAdrDecisions, if_pos hg]
    refine ⟨by simp, ?_⟩
    constructor
    · intro hlen
      simp at hlen
    · rintro (hne | hne)
      · exact absurd hg.1 hne
      · exact absurd hg.2 hne
  · simp only [extractAdrDecisions, if_neg hg]
    refine ⟨by simp, ?_⟩
    constructor
    · intro _
      rcases not_and_or.mp hg with hne | hne
      · exact Or.inl hne
      · exact Or.inr hne
    · intro _
      rfl

end Setkontext
